import Mathlib

/-!
Verification of the liaa Kademlia DHT implementation.

This file is a shallow embedding, in Lean 4, of the parts of the liaa
source that the checked claims are about:

* `liaa/node.py` — node identity and the XOR distance;
* `liaa/routing.py` — the LRU collections, k-buckets and the routing table
  (`add_contact`, `remove_contact`, splitting, range membership);
* `liaa/crawler.py` — the spider-crawl round selection and the
  found-values handler of a value crawl;
* `liaa/storage.py` — the in-memory and disk-backed storage interfaces;
* `liaa/protocol.py` — the outgoing-request size check and the
  response-aggregation of `Server.set_digest`;
* `liaa/server.py` — the public `set` entry point and its type check;
* `liaa/utils.py` — `shared_prefix` and `check_dht_value_type`.

Python dictionaries (`OrderedDict`) are modelled as association lists in
insertion order.  Machine integers are `Nat`/`Int`/`Rat`; node ids are
unbounded in the source (Python ints), so no modular reduction is needed.
Wall-clock readings (`time.monotonic()`, `time.time()`) are passed to the
embedded operations as explicit integer parameters.  Fallible code is
embedded with `Option`/`Except`.
-/

namespace Liaa

/-- Byte strings are modelled as lists of naturals. -/
abbrev Bytes := List ℕ

/-- `MAX_BITSIZE = 200` from `liaa/__init__.py`. -/
def maxBitsize : ℕ := 200

/-- `MAX_LONG = 2 ** MAX_BITSIZE` from `liaa/__init__.py`. -/
def maxLong : ℕ := 2 ^ maxBitsize

/-- The two concrete node classes of `liaa/node.py`: `PingNode` (a network
peer, `GenericNode` tag `ping`) and `IndexNode` (a stored key/value
resource, tag `index`). -/
inductive NodeKind where
  | ping
  | index
deriving DecidableEq, Repr

/-- A node of `liaa/node.py`.  The source derives `digest` from `key` by
`utils.pack` and `long_id` from the digest by `utils.hex_to_int`; the
derivation is a fixed pure function of the key, so the embedding carries
the derived `digest` (as a bit list, the source converts digests to bit
strings for `KBucket.depth`) and `long_id` as node data.  `value` is the
payload of an `IndexNode` (`none` for a `PingNode`). -/
structure GenericNode where
  kind : NodeKind
  key : String
  digest : List Bool
  long_id : ℕ
  value : Option Bytes := none
deriving DecidableEq, Repr

/-- `Node.distance_to` (`liaa/node.py`, lines 35-42): the bitwise XOR of
the two `long_id`s, interpreted as an integer. -/
def GenericNode.distance_to (a b : GenericNode) : ℕ :=
  a.long_id ^^^ b.long_id

/-- `utils.shared_prefix` applied to bit strings: the longest common
prefix of all the strings, as computed by the index-scanning loop of
`liaa/utils.py` (lines 105-123).  The Python `min` of an empty sequence
raises; the source only calls this on non-empty lists (`KBucket.depth`
is reached only for full buckets), so the `[]` case here is junk. -/
def sharedPrefixLen (args : List (List Bool)) : ℕ :=
  match args with
  | [] => 0
  | a :: rest =>
    let minLen := rest.foldl (fun m s => Nat.min m s.length) a.length
    ((List.range minLen).takeWhile
      (fun i => args.all (fun s => s.getD i false == a.getD i false))).length

/-! ### The LRU collection of `liaa/routing.py` (lines 19-72)

An `LRU` wraps a `collections.OrderedDict` from `long_id` keys to nodes.
The backing dict is modelled as an association list in insertion order
(head = oldest entry).  `last_seen` timestamps are the only state of the
source not carried here; no checked claim mentions them. -/

structure LRU where
  maxsize : ℕ
  index : List (ℕ × GenericNode)
deriving DecidableEq, Repr

/-- A fresh `LRU()` (default `maxsize = 100000`). -/
def LRU.empty : LRU := ⟨100000, []⟩

/-- `len(lru)` — the length of the backing dict. -/
def LRU.len (l : LRU) : ℕ := l.index.length

/-- `node in lru` — `__contains__` tests `node.long_id in self.index`. -/
def LRU.containsNode (l : LRU) (n : GenericNode) : Bool :=
  l.index.any (fun e => e.1 = n.long_id)

/-- The values of the backing dict in order (`LRU.nodes`). -/
def LRU.nodes (l : LRU) : List GenericNode := l.index.map Prod.snd

/-- `LRU.pop` — `popitem(last=True)`: remove and return the most recently
inserted entry. -/
def LRU.pop (l : LRU) : LRU × Option (ℕ × GenericNode) :=
  (⟨l.maxsize, l.index.dropLast⟩, l.index.getLast?)

/-- Assignment `d[key] = value` on an `OrderedDict`: an existing key is
updated in place (its position is unchanged); a new key is appended at
the most-recent end. -/
def odAssign (d : List (ℕ × GenericNode)) (k : ℕ) (v : GenericNode) :
    List (ℕ × GenericNode) :=
  if d.any (fun e => e.1 = k) then
    d.map (fun e => if e.1 = k then (k, v) else e)
  else
    d ++ [(k, v)]

/-- `LRU.add`: evict the most recent entry when at capacity, then assign. -/
def LRU.add (l : LRU) (k : ℕ) (v : GenericNode) : LRU :=
  let l' := if l.len = l.maxsize then l.pop.1 else l
  ⟨l'.maxsize, odAssign l'.index k v⟩

/-- `LRU.add_head` (`liaa/routing.py`, lines 41-49): evict when at
capacity, then rebuild the dict with `(k, v)` first and `update` it with
the old entries.  `update` leaves the position of an already-present key
unchanged, so an old entry with key `k` only overwrites the value of the
front slot. -/
def LRU.add_head (l : LRU) (k : ℕ) (v : GenericNode) : LRU :=
  let l' := if l.len = l.maxsize then l.pop.1 else l
  ⟨l'.maxsize,
    (k, ((l'.index.lookup k).getD v)) :: l'.index.filter (fun e => ¬ e.1 = k)⟩

/-- `del lru[node]` — `__delitem__` deletes the entry keyed by
`node.long_id` when present (it is guarded by `node in self`). -/
def LRU.delNode (l : LRU) (n : GenericNode) : LRU :=
  ⟨l.maxsize, l.index.filter (fun e => ¬ e.1 = n.long_id)⟩

/-- `LRU.head` — `self.nodes()[0]`, the oldest (least recently seen)
entry; `none` models the `IndexError` on an empty collection. -/
def LRU.headNode (l : LRU) : Option GenericNode :=
  l.index.head?.map Prod.snd

/-! ### `KBucket` of `liaa/routing.py` (lines 75-180)

The range bounds are Python floats after the first `split` (true
division `/ 2`); they are embedded as exact rationals.  Real IEEE-754
rounding deviates from exact arithmetic once bounds need more than 53
significand bits (notably `midpoint + 1` collapses back to `midpoint`
for large buckets); the claims settled against `split` below are the
ones that do not depend on that rounding. -/

structure KBucket where
  rangeLow : ℚ
  rangeHigh : ℚ
  main_set : LRU
  replacement_set : LRU
  ksize : ℕ
deriving DecidableEq, Repr

instance : Inhabited KBucket :=
  ⟨⟨0, 0, LRU.empty, LRU.empty, 0⟩⟩

/-- A fresh `KBucket(lower, upper, ksize)`. -/
def KBucket.make (lower upper : ℚ) (ksize : ℕ) : KBucket :=
  ⟨lower, upper, LRU.empty, LRU.empty, ksize⟩

/-- `len(bucket)` delegates to the main set. -/
def KBucket.len (b : KBucket) : ℕ := b.main_set.len

/-- `KBucket.is_full`: `len(self) == self.ksize`. -/
def KBucket.is_full (b : KBucket) : Bool := b.len = b.ksize

/-- `KBucket.head`: the first node of the main set. -/
def KBucket.headNode (b : KBucket) : Option GenericNode := b.main_set.headNode

/-- `KBucket.has_in_range`: `range[0] <= node.long_id <= range[1]`. -/
def KBucket.has_in_range (b : KBucket) (n : GenericNode) : Bool :=
  b.rangeLow ≤ (n.long_id : ℚ) ∧ (n.long_id : ℚ) ≤ b.rangeHigh

/-- `KBucket.is_new_node`: `node not in self.main_set`. -/
def KBucket.is_new_node (b : KBucket) (n : GenericNode) : Bool :=
  ¬ b.main_set.containsNode n

/-- `KBucket.depth`: the length of the shared prefix of the bit strings
of the digests of the main-set members. -/
def KBucket.depth (b : KBucket) : ℕ :=
  sharedPrefixLen (b.main_set.nodes.map GenericNode.digest)

/-- `KBucket.add_node` (`liaa/routing.py`, lines 131-154).  Returns the
updated bucket and the boolean result: move-to-most-recent when already
in the main set; append when the main set has room; otherwise place the
node at the most-recent end of the replacement set and return false. -/
def KBucket.add_node (b : KBucket) (n : GenericNode) : KBucket × Bool :=
  if b.main_set.containsNode n then
    ({ b with main_set := (b.main_set.delNode n).add n.long_id n }, true)
  else if b.len < b.ksize then
    ({ b with main_set := b.main_set.add n.long_id n }, true)
  else
    let rs := if b.replacement_set.containsNode n
              then b.replacement_set.delNode n else b.replacement_set
    ({ b with replacement_set := rs.add n.long_id n }, false)

/-- `KBucket.remove_node` (`liaa/routing.py`, lines 120-129): drop the
node from the replacement set if present; if it is in the main set,
delete it there and promote the most recent replacement entry (via
`replacement_set.pop()` then `main_set.add`). -/
def KBucket.remove_node (b : KBucket) (n : GenericNode) : KBucket :=
  let b1 := if b.replacement_set.containsNode n
            then { b with replacement_set := b.replacement_set.delNode n }
            else b
  if b1.main_set.containsNode n then
    let m1 := b1.main_set.delNode n
    if b1.replacement_set.len ≠ 0 then
      match b1.replacement_set.pop with
      | (rs', some (newId, newNode)) =>
        { b1 with main_set := m1.add newId newNode, replacement_set := rs' }
      | (_, none) => { b1 with main_set := m1 }
    else
      { b1 with main_set := m1 }
  else
    b1

/-- `KBucket.split` (`liaa/routing.py`, lines 109-118): `midpoint =
(low + high) / 2` (Python true division, embedded as exact rational
division), `one = KBucket(low, midpoint)`, `two = KBucket(midpoint + 1,
high)`; main-set then replacement-set nodes go to `one` when `long_id <=
midpoint`, else to `two`. -/
def KBucket.split (b : KBucket) : KBucket × KBucket :=
  let midpoint := (b.rangeLow + b.rangeHigh) / 2
  let one := KBucket.make b.rangeLow midpoint b.ksize
  let two := KBucket.make (midpoint + 1) b.rangeHigh b.ksize
  (b.main_set.nodes ++ b.replacement_set.nodes).foldl
    (fun acc n =>
      if (n.long_id : ℚ) ≤ midpoint then ((acc.1.add_node n).1, acc.2)
      else (acc.1, (acc.2.add_node n).1))
    (one, two)

/-! ### `RoutingTable` of `liaa/routing.py` (lines 183-308) -/

structure RoutingTable where
  /-- `self.node` — the source node of this table. -/
  node : GenericNode
  ksize : ℕ
  buckets : List KBucket
deriving DecidableEq, Repr

/-- `RoutingTable.flush` (`liaa/routing.py`, lines 198-200): a single
bucket `KBucket(0, self.maxlong, ksize)` with `maxlong = MAX_LONG`. -/
def RoutingTable.flushBuckets (ksize : ℕ) : List KBucket :=
  [KBucket.make 0 (maxLong : ℚ) ksize]

/-- A freshly constructed `RoutingTable(protocol, ksize, node)`. -/
def RoutingTable.make (node : GenericNode) (ksize : ℕ) : RoutingTable :=
  ⟨node, ksize, RoutingTable.flushBuckets ksize⟩

/-- `RoutingTable.get_bucket_index_for` (`liaa/routing.py`, lines
271-279): the first bucket index with `node.long_id < bucket.range[1]`
(a strict comparison against the upper bound); `none` models the
`RuntimeError` of the fall-through path. -/
def RoutingTable.getBucketIndexFor (rt : RoutingTable) (n : GenericNode) :
    Option ℕ :=
  rt.buckets.findIdx? (fun b => (n.long_id : ℚ) < b.rangeHigh)

/-- `RoutingTable.split_bucket`: replace bucket `i` by the lower half and
insert the upper half right after it. -/
def RoutingTable.splitBucket (rt : RoutingTable) (i : ℕ) : RoutingTable :=
  let (one, two) := (rt.buckets.getD i default).split
  { rt with buckets := (rt.buckets.set i one).insertIdx (i + 1) two }

/-- `RoutingTable.remove_contact`: delegate to the bucket holding the
node.  The `none` index is the unreachable `RuntimeError` path. -/
def RoutingTable.removeContact (rt : RoutingTable) (n : GenericNode) :
    RoutingTable :=
  match rt.getBucketIndexFor n with
  | none => rt
  | some i =>
    { rt with buckets := rt.buckets.set i ((rt.buckets.getD i default).remove_node n) }

/-- `RoutingTable.is_new_node`: whether the target bucket lacks the node
in its main set.  The `none` index models the unreachable `RuntimeError`
path. -/
def RoutingTable.isNewNode (rt : RoutingTable) (n : GenericNode) : Bool :=
  match rt.getBucketIndexFor n with
  | none => true
  | some i => (rt.buckets.getD i default).is_new_node n

/-- `RoutingTable.add_contact` (`liaa/routing.py`, lines 224-269).

The result pairs the updated table with the ping probe scheduled by
`asyncio.ensure_future(self.protocol.call_ping(bucket.head()))`, if any
(the probed node).  `ensure_future` returns a `Task` object; the guard
`if not result:` right after it tests the truthiness of that `Task`
(always truthy), so the branch replacing the head via
`LRU.remove`/`LRU.add_head` can never execute and is not part of the
reachable state transformation.  The recursion passes `attempted=True`
and the `attempted` guard precedes any second split, so the recursion
depth is at most 2; the fuel-0 case is unreachable.  `set_last_seen`
touches only the wall-clock timestamp and is elided. -/
def RoutingTable.addContactAux :
    ℕ → RoutingTable → GenericNode → Bool → RoutingTable × Option GenericNode
  | 0, rt, _, _ => (rt, none)
  | fuel + 1, rt, n, attempted =>
    match rt.getBucketIndexFor n with
    | none => (rt, none)
    | some i =>
      let bucket := rt.buckets.getD i default
      if bucket.is_full ∧ attempted then
        (rt, none)
      else
        let res := bucket.add_node n
        let bucket' := res.1
        let rt' := { rt with buckets := rt.buckets.set i bucket' }
        if res.2 then
          (rt', none)
        else if bucket'.has_in_range rt.node ∨ bucket'.depth % 5 ≠ 0 then
          RoutingTable.addContactAux fuel (rt'.splitBucket i) n true
        else if bucket'.is_full then
          (rt', bucket'.headNode)
        else
          (rt', none)

/-- `add_contact(node)` — entry point with `attempted=False`. -/
def RoutingTable.addContact (rt : RoutingTable) (n : GenericNode) :
    RoutingTable × Option GenericNode :=
  RoutingTable.addContactAux 2 rt n false

/-- The routing-table effect of `KademliaProtocol.welcome_if_new`
(`liaa/protocol.py`, lines 662-699): a no-op unless the node is new and
a peer; otherwise the storage replication loop only schedules
fire-and-forget `call_store` tasks (no routing-table mutation) and the
node is then added via `add_contact`. -/
def RoutingTable.welcomeIfNew (rt : RoutingTable) (n : GenericNode) :
    RoutingTable :=
  if ¬ rt.isNewNode n ∨ n.kind = NodeKind.index then rt
  else (rt.addContact n).1

/-- The routing-table effect of `KademliaProtocol.handle_call_response`
(`liaa/protocol.py`, lines 701-727): `result[0] = false` (timeout)
removes the peer from the router; a truthy `result[0]` welcomes it. -/
def RoutingTable.handleCallResponse (rt : RoutingTable) (ok : Bool)
    (n : GenericNode) : RoutingTable :=
  if ¬ ok then rt.removeContact n else rt.welcomeIfNew n

/-! ### The spider crawlers of `liaa/crawler.py` -/

/-- The per-round selection loop of `SpiderCrawl._find`
(`liaa/crawler.py`, lines 82-98) over the list
`self.nearest.get_uncontacted()[:count]`.  For each node, an `IndexNode`
makes the whole coroutine return `None` at once (`return None` inside
the loop); a `PingNode` has its RPC coroutine stored in `dicts` and is
marked contacted.  The result is the list of keys marked contacted (in
order) and whether the round was aborted; on abort the coroutines
accumulated so far are discarded without being awaited, so no RPC runs. -/
def findLoop : List GenericNode → List String × Bool
  | [] => ([], false)
  | n :: rest =>
    if n.kind = NodeKind.index then ([], true)
    else
      let r := findLoop rest
      (n.key :: r.1, r.2)

/-- One `_find` round at a given `count`: the loop applied to the first
`count` uncontacted nodes. -/
def findRound (uncontacted : List GenericNode) (count : ℕ) :
    List String × Bool :=
  findLoop (uncontacted.take count)

/-- The keys whose RPC coroutines are actually awaited by the round:
all marked keys when the loop completes, none when it aborts (the
coroutines in `dicts` are dropped before `gather_dict`). -/
def invokedPeers (uncontacted : List GenericNode) (count : ℕ) :
    List String :=
  let r := findRound uncontacted count
  if r.2 then [] else r.1

/-- `ValueSpiderCrawl._handle_found_values` (`liaa/crawler.py`, lines
246-301).  `items` are the collected single-entry `{key: value}`
responses, flattened to their values; `Counter` counts distinct values,
so `len(value_counts) != 1` is `flattened.dedup ≠ [v]`: in that case a
warning is logged and `None` is returned.  Otherwise the unique distinct
value is `most_common(1)[0][0]`; if the popped
`nearest_without_value` peer exists and is a `PingNode`, the first item
carrying the top value provides `top_key` and a `call_store` of
`(peer, top_key, top_value)` is issued (the inner `none` models the
`RuntimeError` raised when no item matches, unreachable because the top
value comes from the items).  The first component is the returned value,
the second the scheduled cache write. -/
def handleFoundValues (nwv : Option GenericNode)
    (items : List (String × Bytes)) :
    Option Bytes × Option (GenericNode × String × Bytes) :=
  match (items.map Prod.snd).dedup with
  | [v] =>
    (some v,
      match nwv with
      | some peer =>
        if peer.kind = NodeKind.ping then
          match items.find? (fun d => d.2 = v) with
          | some d => some (peer, d.1, v)
          | none => none
        else none
      | none => none)
  | _ => (none, none)

/-! ### Storage (`liaa/storage.py`)

A stored value is the `value` attribute of the stored node, itself an
`Option Bytes` (the source can store `None`). -/

abbrev StoredVal := Option Bytes

/-- `EphemeralStorage` (`liaa/storage.py`, lines 67-196): a TTL plus the
backing `OrderedDict` from string keys to `(birthday, value)` pairs, in
insertion order (head = oldest). -/
structure EphemeralStorage where
  ttl : ℤ
  data : List (String × ℤ × StoredVal)
deriving DecidableEq, Repr

/-- A fresh `EphemeralStorage` (default `ttl = 604800`). -/
def EphemeralStorage.empty : EphemeralStorage := ⟨604800, []⟩

/-- `key in storage` — `__contains__` tests `key in self.data` with a
string key. -/
def EphemeralStorage.containsKey (s : EphemeralStorage) (key : String) :
    Bool :=
  s.data.any (fun e => e.1 = key)

/-- The keys that a Python dict membership test can compare: the
`OrderedDict` of `EphemeralStorage` is keyed by strings, but
`EphemeralStorage.set` tests `node in self`, passing the node object
itself. -/
inductive PyDictKey where
  | str (s : String)
  | nodeObj (long_id : ℕ)
deriving DecidableEq, Repr

/-- Python dict key equality as used by the membership test: objects of
different types are unequal (a `Node` hashes by its integer `long_id`
and its `__eq__` accepts only `Node` operands, so it never matches a
string key). -/
def pyDictKeyEq : PyDictKey → PyDictKey → Bool
  | PyDictKey.str a, PyDictKey.str b => a = b
  | PyDictKey.nodeObj a, PyDictKey.nodeObj b => a = b
  | _, _ => false

/-- The membership test `node in self` of `EphemeralStorage.set`
(`liaa/storage.py`, line 117): the node object is looked up among the
string keys of the backing dict. -/
def EphemeralStorage.containsNodeObject (s : EphemeralStorage)
    (n : GenericNode) : Bool :=
  s.data.any (fun e => pyDictKeyEq (PyDictKey.nodeObj n.long_id) (PyDictKey.str e.1))

/-- Assignment `self.data[key] = (birthday, value)`: an existing key is
updated in place (position unchanged), a new key is appended. -/
def odStore (d : List (String × ℤ × StoredVal)) (key : String)
    (tv : ℤ × StoredVal) : List (String × ℤ × StoredVal) :=
  if d.any (fun e => e.1 = key) then
    d.map (fun e => if e.1 = key then (key, tv.1, tv.2) else e)
  else
    d ++ [(key, tv.1, tv.2)]

/-- `EphemeralStorage.remove` (`liaa/storage.py`, lines 122-134): the
method opens with `assert key in self`; a missing key therefore raises
`AssertionError` (modelled as the error case) instead of being a no-op. -/
def EphemeralStorage.remove (s : EphemeralStorage) (key : String) :
    Except String EphemeralStorage :=
  if s.containsKey key then
    Except.ok { s with data := s.data.filter (fun e => ¬ e.1 = key) }
  else
    Except.error "AssertionError"

/-- `EphemeralStorage.set` (`liaa/storage.py`, lines 107-120) at monotonic
time `t`: `if node in self: self.remove(node.key)` followed by
`self.data[node.key] = (time.monotonic(), node.value)`.  The membership
test compares the node object against string keys (see
`containsNodeObject`), and the assignment updates an existing key in
place. -/
def EphemeralStorage.set (s : EphemeralStorage) (t : ℤ) (n : GenericNode) :
    EphemeralStorage :=
  let s1 :=
    if s.containsNodeObject n then
      match s.remove n.key with
      | Except.ok s' => s'
      | Except.error _ => s
    else s
  { s1 with data := odStore s1.data n.key (t, n.value) }

/-- `EphemeralStorage.iter_older_than` (`liaa/storage.py`, lines 143-165)
at monotonic time `t`: `min_birthday = t - seconds_old`, then
`takewhile(lambda r: min_birthday >= r[1], ...)` over the entries in
insertion order, keeping `(key, value)`. -/
def EphemeralStorage.iterOlderThan (s : EphemeralStorage) (t seconds : ℤ) :
    List (String × StoredVal) :=
  (s.data.takeWhile (fun e => t - seconds ≥ e.2.1)).map
    (fun e => (e.1, e.2.2))

/-- `EphemeralStorage.prune` (`liaa/storage.py`, lines 136-141) at time
`t`: one `popitem(last=False)` (pop the oldest entry) per element of
`iter_older_than(self.ttl)`. -/
def EphemeralStorage.prune (s : EphemeralStorage) (t : ℤ) :
    EphemeralStorage :=
  { s with data := s.data.drop (s.iterOlderThan t s.ttl).length }

/-- `EphemeralStorage.get` (`liaa/storage.py`, lines 83-105) at time `t`:
the `@pre_prune()` decorator prunes first, then a present key yields the
stored node value and a missing key yields the default (`None`).  The
result pairs the pruned state with the returned value. -/
def EphemeralStorage.get (s : EphemeralStorage) (t : ℤ) (key : String) :
    EphemeralStorage × Option StoredVal :=
  let s' := s.prune t
  (s', (s'.data.find? (fun e => e.1 = key)).map (fun e => e.2.2))

/-- `DiskStorage` (`liaa/storage.py`, lines 199-385): one file per key in
the content directory; each file holds the value bytes and the file has
a modification time.  `files` models `os.listdir` order with the stat
`st_mtime` and pickled value of each file. -/
structure DiskStorage where
  ttl : ℤ
  files : List (String × ℤ × StoredVal)
deriving DecidableEq, Repr

/-- A fresh `DiskStorage` with an empty content dir. -/
def DiskStorage.empty : DiskStorage := ⟨604800, []⟩

/-- `key in storage` — `__contains__` tests `key in self.contents()`. -/
def DiskStorage.containsKey (s : DiskStorage) (key : String) : Bool :=
  s.files.any (fun e => e.1 = key)

/-- `DiskStorage._load_data`: unpickle the file when present; a missing
file (`FileNotFoundError`) is logged and yields `None`. -/
def DiskStorage.loadData (s : DiskStorage) (key : String) : StoredVal :=
  match s.files.find? (fun e => e.1 = key) with
  | some e => e.2.2
  | none => none

/-- `DiskStorage._content_stats` (`liaa/storage.py`, lines 351-365) at
wall-clock time `t`: for each file the pair of its name and
`(datetime.fromtimestamp(t) - datetime.fromtimestamp(mtime)).seconds` —
the seconds component of the timedelta after whole days are removed,
i.e. `(t - mtime) mod 86400`. -/
def DiskStorage.contentStats (s : DiskStorage) (t : ℤ) : List (String × ℤ) :=
  s.files.map (fun e => (e.1, (t - e.2.1).emod 86400))

/-- `DiskStorage.iter_older_than` (`liaa/storage.py`, lines 271-289):
filter the content stats with `stat > seconds_old` and load each
surviving key. -/
def DiskStorage.iterOlderThan (s : DiskStorage) (t seconds : ℤ) :
    List (String × StoredVal) :=
  ((s.contentStats t).filter (fun p => p.2 > seconds)).map
    (fun p => (p.1, s.loadData p.1))

/-- `DiskStorage.prune` (`liaa/storage.py`, lines 291-296) at time `t`:
`self.remove(key)` for each key of `iter_older_than(self.ttl)` (each
such key is present, so the asserts hold; file names are unique). -/
def DiskStorage.prune (s : DiskStorage) (t : ℤ) : DiskStorage :=
  let ks := (s.iterOlderThan t s.ttl).map Prod.fst
  { s with files := s.files.filter (fun e => ¬ ks.contains e.1) }

/-- `DiskStorage.remove` (`liaa/storage.py`, lines 257-269): opens with
`assert key in self`, then `os.remove` — a missing key raises
`AssertionError` (the error case) instead of being a no-op. -/
def DiskStorage.remove (s : DiskStorage) (key : String) :
    Except String DiskStorage :=
  if s.containsKey key then
    Except.ok { s with files := s.files.filter (fun e => ¬ e.1 = key) }
  else
    Except.error "AssertionError"

/-- `DiskStorage.get` (`liaa/storage.py`, lines 219-240) at time `t`:
`@pre_prune()` prunes first; a present key yields the loaded value, a
missing key the default (`None`). -/
def DiskStorage.get (s : DiskStorage) (t : ℤ) (key : String) :
    DiskStorage × Option StoredVal :=
  let s' := s.prune t
  (s', if s'.containsKey key then some (s'.loadData key) else none)

/-! ### Python runtime values (for the protocol and server claims) -/

/-- The Python values flowing through the RPC layer. -/
inductive PyObj where
  | pynone
  | pybool (b : Bool)
  | pyint (n : ℤ)
  | pystr (s : String)
  | pybytes (b : Bytes)
  | pytuple (l : List PyObj)
  | pylist (l : List PyObj)

/-- Python truthiness: `None` and `False` are falsy; numbers are truthy
unless zero; strings and collections are truthy unless empty.  In
particular a two-element tuple such as an RPC response `(flag, data)` is
always truthy, whatever the flag. -/
def PyObj.truthy : PyObj → Bool
  | PyObj.pynone => false
  | PyObj.pybool b => b
  | PyObj.pyint n => ¬ n = 0
  | PyObj.pystr s => ¬ s = ""
  | PyObj.pybytes b => ¬ b = []
  | PyObj.pytuple l => !l.isEmpty
  | PyObj.pylist l => !l.isEmpty

/-- The value returned by `KademliaProtocol.handle_call_response`
(`liaa/protocol.py`, lines 701-727): both branches (`result[0]` falsy →
remove the peer; truthy → welcome it) end with `return result`, so the
call-side value of every `call_*` wrapper is the `(flag, data)` response
tuple itself. -/
def handleCallResponseValue (result : PyObj) : PyObj := result

/-- The return value of `Server.set_digest` (`liaa/server.py`, lines
298-330) given the `call_store` responses for the crawl-result peers:
`return any(await asyncio.gather(*results))`, where each element is the
value returned by `call_store`, i.e. by `handle_call_response`. -/
def setDigestReturn (storeResults : List PyObj) : Bool :=
  (storeResults.map handleCallResponseValue).any PyObj.truthy

/-! ### The outgoing-request path of `RPCDatagramProtocol.__getattr__`
(`liaa/protocol.py`, lines 241-276) -/

/-- `Header.Request = b'\x00'`. -/
def headerRequestByte : ℕ := 0

/-- The outcome of the request closure `func(address, *args)`:
the datagram handed to `transport.sendto` (if any), the message id
registered in the in-flight queue with a completion future and a
`call_later(self._wait, ...)` timeout (if any), and whether the call
returned `None` after logging the oversize error. -/
structure RpcSendOutcome where
  sentDatagram : Option Bytes
  registeredId : Option Bytes
  returnedNone : Bool
deriving DecidableEq, Repr

/-- The body of the request closure: `msg_id` is a fresh 20-byte SHA-1
digest, `data = umsgpack.packb([name, args])`; `if len(data) > 8192`
the call logs an error and returns `None` without sending; otherwise
`txdata = Header.Request + msg_id + data` is sent and
`self._queue[msg_id] = (future, timeout)` is registered.  The packed
body is taken as input (its exact msgpack encoding is irrelevant to the
size check, which reads only `len(data)`). -/
def rpcRequest (msgId : Bytes) (data : Bytes) : RpcSendOutcome :=
  if data.length > 8192 then
    { sentDatagram := none, registeredId := none, returnedNone := true }
  else
    { sentDatagram := some (headerRequestByte :: (msgId ++ data))
      registeredId := some msgId
      returnedNone := false }

/-! ### `Server.set` (`liaa/server.py`, lines 278-296) and the value
type check of `liaa/utils.py` (lines 158-181) -/

/-- The Python type of a value passed to the public `set`. -/
inductive PyType where
  | int
  | float
  | bool
  | str
  | bytes
  | nonetype
  | list
  | dict
deriving DecidableEq, Repr

/-- The `typeset` of `utils.check_dht_value_type`. -/
def dhtTypeset : List PyType :=
  [PyType.int, PyType.float, PyType.bool, PyType.str, PyType.bytes]

/-- `utils.check_dht_value_type`: `type(value) in typeset`. -/
def check_dht_value_type (t : PyType) : Bool := dhtTypeset.contains t

/-- `Server.set(node)` given the Python type of `node.value` and the
result that `set_digest` would produce.  The source reads:
`if not node.has_valid_value(): log.error("Value must be of type int,
float, bool, str, or bytes")` — with no `raise` and no early return —
then `return await self.set_digest(node)`.  The first component is the
normally-returned value (`Except.error` would model an exception
propagating to the caller; none is ever raised), the second whether the
error was logged. -/
def serverSet (valueType : PyType) (digestResult : Bool) :
    Except String Bool × Bool :=
  (Except.ok digestResult, ¬ check_dht_value_type valueType)

/-! ### The first real split of the initial bucket (binary64 arithmetic)

`KBucket.split` computes `midpoint = (low + high) / 2` with Python float
(IEEE-754 binary64) true division and the second bucket's lower bound as
`midpoint + 1` in float arithmetic.  The definitions below make that
arithmetic explicit for the split of the initial bucket
`KBucket(0, MAX_LONG)`, whose values are far below the binary64 overflow
threshold and integral throughout. -/

/-- Rounding of a positive integer to the nearest IEEE-754 binary64
value (round to nearest, ties to even), for magnitudes far below the
overflow threshold; such a rounding result is integral and is
represented here by its integer value.  An integer below `2^53` is
exactly representable.  Otherwise the 53-bit significand `m = n / 2^k`
(with `k = floor(log2 n) - 52`) is kept, incremented, or steered to the
even neighbour according to the discarded remainder `n % 2^k` compared
against `2^(k-1)`.  CPython float arithmetic produces exactly this
rounding of the exact result: `int / int` true division returns the
correctly rounded quotient, and adding `1` to a double whose value is an
integer rounds the exact integer sum. -/
def binary64Round (n : ℕ) : ℕ :=
  if n < 2 ^ 53 then n
  else
    let k := Nat.log 2 n - 52
    let m := n / 2 ^ k
    let r := n % 2 ^ k
    let half := 2 ^ (k - 1)
    let mr :=
      if half < r then m + 1
      else if r < half then m
      else if m % 2 = 0 then m else m + 1
    mr * 2 ^ k

/-- The two buckets produced by the source's `split` (`liaa/routing.py`,
lines 109-118) applied to the initial bucket `KBucket(0, MAX_LONG)`,
with the float arithmetic explicit: `midpoint = (0 + 2^200) / 2` is the
binary64 rounding of the exact quotient `2^199` (representable, so kept
exactly), and the second bucket's lower bound is the binary64 sum
`midpoint + 1`, the rounding of `2^199 + 1`. -/
def firstSplitBuckets (ksize : ℕ) : KBucket × KBucket :=
  (KBucket.make 0 ((binary64Round (2 ^ 200 / 2) : ℕ) : ℚ) ksize,
   KBucket.make ((binary64Round (binary64Round (2 ^ 200 / 2) + 1) : ℕ) : ℚ)
     (maxLong : ℚ) ksize)

/-- A peer node whose id is the first-split midpoint `2^199`. -/
def midNode : GenericNode :=
  ⟨NodeKind.ping, "127.0.0.1:7000", [], 2 ^ 199, none⟩

/-! ### Concrete instances used to evaluate the embedding -/

/-- A peer node with a small id. -/
def peerA : GenericNode := ⟨NodeKind.ping, "127.0.0.1:8001", [true], 1, none⟩

/-- An index (stored key/value) node. -/
def indexB : GenericNode := ⟨NodeKind.index, "b", [false], 2, some [9]⟩

/-- Another peer node. -/
def peerC : GenericNode := ⟨NodeKind.ping, "127.0.0.1:8003", [true], 3, none⟩

/-- A node whose `long_id` is exactly `MAX_LONG = 2 ^ 200` (the `Node`
constructor of `liaa/node.py` admits ids up to `MAX_LONG + 1`). -/
def fullSpaceNode : GenericNode := ⟨NodeKind.ping, "0.0.0.0:0", [], maxLong, none⟩

/-- Index nodes for the storage scenarios: two keys, then a re-set of the
first key with a new value. -/
def nodeA1 : GenericNode := ⟨NodeKind.index, "a", [], 100, some [1]⟩

/-- Second stored key. -/
def nodeB1 : GenericNode := ⟨NodeKind.index, "b", [], 101, some [2]⟩

/-- The re-set of key `a` with a fresh value. -/
def nodeA2 : GenericNode := ⟨NodeKind.index, "a", [], 100, some [3]⟩

/-- The source node of the routing-table scenario (outside the range of
the first bucket). -/
def witSource : GenericNode :=
  ⟨NodeKind.ping, "127.0.0.1:9000", [true, true, false, true, false], 200, none⟩

/-- The single resident of the full first bucket (the bucket head). -/
def witMember : GenericNode :=
  ⟨NodeKind.ping, "127.0.0.1:9001", [true, false, true, false, true], 10, none⟩

/-- The new contact whose target bucket is full. -/
def witNew : GenericNode :=
  ⟨NodeKind.ping, "127.0.0.1:9002", [false, true, true, false, false], 50, none⟩

/-- A full (`ksize = 1`) bucket over `[0, 100]` holding only `witMember`. -/
def witBucket0 : KBucket := ⟨0, 100, ⟨100000, [(10, witMember)]⟩, LRU.empty, 1⟩

/-- The sibling bucket over `[101, 300]`, which contains the source. -/
def witBucket1 : KBucket := KBucket.make 101 300 1

/-- The routing-table state of the full-bucket scenario. -/
def witTable : RoutingTable := ⟨witSource, 1, [witBucket0, witBucket1]⟩

/-! ## Theorems -/

/-- C8: the XOR distance of `Node.distance_to` satisfies
`a.distance_to(a) == 0`, symmetry, and the XOR triangle inequality
`a.distance_to(c) <= a.distance_to(b) XOR b.distance_to(c)` (the last
holds with equality). -/
theorem c8_xor_metric (a b c : GenericNode) :
    a.distance_to a = 0 ∧
    a.distance_to b = b.distance_to a ∧
    a.distance_to c ≤ a.distance_to b ^^^ b.distance_to c := by
  refine ⟨?_, ?_, ?_⟩
  · simp [GenericNode.distance_to]
  · simp [GenericNode.distance_to, Nat.xor_comm]
  · have h : a.distance_to b ^^^ b.distance_to c = a.distance_to c := by
      unfold GenericNode.distance_to
      rw [Nat.xor_assoc, ← Nat.xor_assoc b.long_id, Nat.xor_self, Nat.zero_xor]
    exact le_of_eq h.symm

/-- C6: evaluation of `Server.set` at a failing input.  A value of Python
type `list` is invalid per `check_dht_value_type`, yet `Server.set`
surfaces no type error to the caller: the function only logs the message
and still returns the result of `set_digest` normally, so the store
pipeline runs for the invalid value. -/
theorem c6_invalid_type_set_proceeds :
    check_dht_value_type PyType.list = false ∧
    serverSet PyType.list true = (Except.ok true, true) := by
  exact ⟨rfl, rfl⟩

/-- C9: evaluation of the `set_digest` return value at a failing input.
A timed-out `call_store` produces the response tuple `(False, None)` —
its flag (`result[0]`) is falsy, i.e. no remote store succeeded — yet
`any(await asyncio.gather(*results))` is `True` because a two-element
tuple is truthy as a Python object regardless of its flag.  The claim
(and the source comment `return true only if at least one store call
succeeded`) require `False` here. -/
theorem c9_set_returns_true_on_failed_stores :
    PyObj.truthy (PyObj.pybool false) = false ∧
    setDigestReturn [PyObj.pytuple [PyObj.pybool false, PyObj.pynone]] = true := by
  exact ⟨rfl, rfl⟩

/-- C7 counterexample: an outgoing request whose packed body is exactly
8192 bytes has a total frame of 8213 bytes (1 tag byte + 20 id bytes +
body), which exceeds 8192 — yet the datagram is sent and the call does
not fail, because the size check in `__getattr__` reads only
`len(data)`.  The claim states that no datagram is sent for such a
frame. -/
theorem c7_frame_limit_counterexample :
    (rpcRequest (List.replicate 20 0) (List.replicate 8192 1)).sentDatagram =
      some (headerRequestByte :: (List.replicate 20 0 ++ List.replicate 8192 1)) ∧
    (headerRequestByte :: (List.replicate 20 0 ++ (List.replicate 8192 1 : Bytes))).length = 8213 ∧
    (rpcRequest (List.replicate 20 0) (List.replicate 8192 1)).returnedNone = false := by
  have hlen : (List.replicate 8192 (1 : ℕ)).length = 8192 := by
    rw [List.length_replicate]
  refine ⟨?_, ?_, ?_⟩
  · unfold rpcRequest
    rw [hlen, if_neg (by norm_num)]
  · rw [List.length_cons, List.length_append, hlen, List.length_replicate]
  · unfold rpcRequest
    rw [hlen, if_neg (by norm_num)]

/-- C7 amended: the size limit of the outgoing-request path applies to
the packed body alone.  A request whose packed body exceeds 8192 bytes
is not sent and returns `None` after logging an error (no exception is
raised); a request whose packed body is within 8192 bytes is sent as a
frame of `21 + len(body)` bytes (hence up to 8213 bytes on the wire)
and a pending future with a timeout is registered under the 20-byte
message id. -/
theorem c7_body_limit_amended (msgId data : Bytes) (hid : msgId.length = 20) :
    (rpcRequest msgId data).sentDatagram.map List.length =
      (if 8192 < data.length then none else some (21 + data.length)) ∧
    (rpcRequest msgId data).registeredId =
      (if 8192 < data.length then none else some msgId) ∧
    (rpcRequest msgId data).returnedNone = decide (8192 < data.length) := by
  by_cases h : 8192 < data.length
  · simp [rpcRequest, h]
  · refine ⟨?_, ?_, ?_⟩
    · simp [rpcRequest, h, hid]
      omega
    · simp [rpcRequest, h]
    · simp [rpcRequest, h]

/-- C7 witness: the amended statement evaluated for a 20-byte message id
and a 1-byte body. -/
theorem c7_body_limit_witness :
    (List.replicate 20 0 : Bytes).length = 20 ∧
    ((rpcRequest (List.replicate 20 0) [5]).sentDatagram.map List.length =
      (if 8192 < ([5] : Bytes).length then none else some (21 + ([5] : Bytes).length)) ∧
    (rpcRequest (List.replicate 20 0) [5]).registeredId =
      (if 8192 < ([5] : Bytes).length then none else some (List.replicate 20 0)) ∧
    (rpcRequest (List.replicate 20 0) [5]).returnedNone =
      decide (8192 < ([5] : Bytes).length)) :=
  ⟨by simp, c7_body_limit_amended (List.replicate 20 0) [5] (by simp)⟩

/-- C5 counterexample: removing a missing key is not a no-op.  On an
empty store, `remove("a")` fails the opening `assert key in self` in
both the in-memory and the disk-backed variant, so the operation raises
`AssertionError` instead of returning silently. -/
theorem c5_remove_missing_counterexample :
    EphemeralStorage.remove EphemeralStorage.empty "a" =
      Except.error "AssertionError" ∧
    DiskStorage.remove DiskStorage.empty "a" = Except.error "AssertionError" := by
  exact ⟨rfl, rfl⟩

/-- C5 amended: for every key absent from storage, `get(key)` returns the
default (`None`) without error in both variants, but `remove(key)` on a
missing key fails the `assert key in self` (an `AssertionError`) in both
variants rather than being a no-op. -/
theorem c5_missing_key_amended (es : EphemeralStorage) (ds : DiskStorage)
    (key : String) (t : ℤ)
    (he : es.containsKey key = false) (hd : ds.containsKey key = false) :
    (es.get t key).2 = none ∧
    EphemeralStorage.remove es key = Except.error "AssertionError" ∧
    (ds.get t key).2 = none ∧
    DiskStorage.remove ds key = Except.error "AssertionError" := by
  have he' : ∀ e ∈ es.data, ¬ e.1 = key := by
    simpa [EphemeralStorage.containsKey, List.any_eq_false] using he
  have hd' : ∀ e ∈ ds.files, ¬ e.1 = key := by
    simpa [DiskStorage.containsKey, List.any_eq_false] using hd
  refine ⟨?_, ?_, ?_, ?_⟩
  · simp only [EphemeralStorage.get, EphemeralStorage.prune]
    rw [List.find?_eq_none.mpr]
    · rfl
    · intro e hmem
      simpa using he' e (List.drop_subset _ _ hmem)
  · simp [EphemeralStorage.remove, he]
  · have hc : (ds.prune t).containsKey key = false := by
      simp only [DiskStorage.prune, DiskStorage.containsKey]
      rw [List.any_eq_false]
      intro e hmem
      simpa using hd' e (List.mem_of_mem_filter hmem)
    simp [DiskStorage.get, hc]
  · simp [DiskStorage.remove, hd]

/-- C5 witness: the amended statement evaluated on empty stores. -/
theorem c5_missing_key_witness :
    EphemeralStorage.empty.containsKey "a" = false ∧
    DiskStorage.empty.containsKey "a" = false ∧
    ((EphemeralStorage.empty.get 0 "a").2 = none ∧
     EphemeralStorage.remove EphemeralStorage.empty "a" =
       Except.error "AssertionError" ∧
     (DiskStorage.empty.get 0 "a").2 = none ∧
     DiskStorage.remove DiskStorage.empty "a" = Except.error "AssertionError") :=
  ⟨rfl, rfl,
    c5_missing_key_amended EphemeralStorage.empty DiskStorage.empty "a" 0 rfl rfl⟩

/-- C10: evaluation of the storage operations at a failing input.
Setting key `a` (birthday 0), then key `b` (birthday 0), then re-setting
key `a` at time 10 leaves `a` at the oldest position with the fresh
birthday: the membership test `node in self` of `EphemeralStorage.set`
compares the Node object against the string keys of the backing dict and
is always false, so the guarded `remove` never fires and the
`OrderedDict` assignment updates the entry in place.  The entries are
then in decreasing birthday order `[10, 0]`, and `prune` at time 604805
— when entry `b` has age `604805 >= ttl = 604800` — removes nothing,
because `iter_older_than` is a `takewhile` over the insertion order and
stops at the fresh front entry.  The claim requires `a` to move to the
most-recent position and `prune` to evict `b`. -/
theorem c10_reset_keeps_position_prune_misses :
    ((EphemeralStorage.empty.set 0 nodeA1).set 0 nodeB1).set 10 nodeA2 =
      ⟨604800, [("a", 10, some [3]), ("b", 0, some [2])]⟩ ∧
    (((((EphemeralStorage.empty.set 0 nodeA1).set 0 nodeB1).set 10 nodeA2).prune
        604805).data =
      [("a", 10, some [3]), ("b", 0, some [2])]) ∧
    (604805 : ℤ) - 0 ≥ (604800 : ℤ) := by
  refine ⟨?_, ?_, by norm_num⟩ <;> rfl

/-! ### Binary64 rounding facts for the bucket-range tiling claim -/

lemma binary64Round_two_pow_199 : binary64Round (2 ^ 199) = 2 ^ 199 := by
  have hlog : Nat.log 2 (2 ^ 199) = 199 := Nat.log_pow (by norm_num) 199
  simp only [binary64Round, hlog]
  norm_num

lemma binary64Round_two_pow_199_add_one :
    binary64Round (2 ^ 199 + 1) = 2 ^ 199 := by
  have hlog : Nat.log 2 (2 ^ 199 + 1) = 199 :=
    Nat.log_eq_of_pow_le_of_lt_pow (by norm_num) (by norm_num)
  simp only [binary64Round, hlog]
  norm_num

lemma firstSplit_midpoint : binary64Round (2 ^ 200 / 2) = 2 ^ 199 := by
  rw [show (2 : ℕ) ^ 200 / 2 = 2 ^ 199 by norm_num]
  exact binary64Round_two_pow_199

lemma firstSplit_lower_two :
    binary64Round (binary64Round (2 ^ 200 / 2) + 1) = 2 ^ 199 := by
  rw [firstSplit_midpoint]
  exact binary64Round_two_pow_199_add_one

/-- C1 counterexample: the claim is already false with zero splits.  The
initial routing table (`RoutingTable.flush`) is the single bucket
`KBucket(0, MAX_LONG)`, and `has_in_range` is the closed comparison
`low <= id <= high`: the id `2^200 = MAX_LONG` itself lies in that
bucket range, but it is not in the half-open space `[0, 2^BITS)`, so the
union of the bucket ranges is not `[0, 2^BITS)` exactly. -/
theorem c1_bucket_tiling_counterexample :
    KBucket.has_in_range ((RoutingTable.flushBuckets 20).getD 0 default)
      fullSpaceNode = true ∧
    ¬ fullSpaceNode.long_id < maxLong := by
  constructor
  · simp [RoutingTable.flushBuckets, KBucket.make, KBucket.has_in_range,
      fullSpaceNode]
  · simp [fullSpaceNode]

/-- C1 amended: the tiling holds only at the initial state and over the
closed interval.  The initial routing table's single bucket
`KBucket(0, MAX_LONG)` with the closed `has_in_range` contains exactly
the ids `0 <= id <= 2^BITS`, each falling in exactly one bucket — so the
union of bucket ranges is the closed `[0, 2^BITS]`, not `[0, 2^BITS)`.
Splitting does not preserve the disjoint tiling: the split midpoint is
computed in Python binary64 float arithmetic, and the first split of the
initial bucket produces the ranges `[0, 2^199]` and `[2^199, 2^200]` —
the binary64 sum `2^199 + 1` rounds back to `2^199` — so the in-space id
`2^199` lies in both resulting bucket ranges. -/
theorem c1_bucket_tiling_amended (ksize : ℕ) (nd : GenericNode) :
    (((RoutingTable.flushBuckets ksize).filter
        (fun bk => bk.has_in_range nd)).length = 1 ↔
      nd.long_id ≤ maxLong) ∧
    midNode.long_id < maxLong ∧
    (firstSplitBuckets ksize).1.has_in_range midNode = true ∧
    (firstSplitBuckets ksize).2.has_in_range midNode = true := by
  refine ⟨?_, ?_, ?_, ?_⟩
  · have hiff : (KBucket.make 0 (maxLong : ℚ) ksize).has_in_range nd = true ↔
        nd.long_id ≤ maxLong := by
      simp only [KBucket.make, KBucket.has_in_range, decide_eq_true_eq]
      constructor
      · rintro ⟨-, h2⟩
        exact_mod_cast h2
      · intro h
        exact ⟨by positivity, by exact_mod_cast h⟩
    by_cases hp : (KBucket.make 0 (maxLong : ℚ) ksize).has_in_range nd
    · simp [RoutingTable.flushBuckets, List.filter, hp, hiff.mp hp]
    · have hnle : ¬ nd.long_id ≤ maxLong := (not_iff_not.mpr hiff).mp hp
      have hfalse : (KBucket.make 0 (maxLong : ℚ) ksize).has_in_range nd =
          false := by
        simpa [Bool.not_eq_true] using hp
      simp [RoutingTable.flushBuckets, List.filter, hfalse, hnle]
  · show 2 ^ 199 < maxLong
    simp only [maxLong, maxBitsize]
    norm_num
  · simp only [firstSplitBuckets, firstSplit_midpoint, KBucket.make,
      KBucket.has_in_range, midNode, decide_eq_true_eq]
    constructor
    · positivity
    · exact_mod_cast le_refl (2 ^ 199 : ℕ)
  · simp only [firstSplitBuckets, firstSplit_lower_two, KBucket.make,
      KBucket.has_in_range, midNode, decide_eq_true_eq, maxLong, maxBitsize]
    constructor
    · exact_mod_cast le_refl (2 ^ 199 : ℕ)
    · exact_mod_cast Nat.pow_le_pow_right (by norm_num) (by norm_num)

/-! ### Lemmas for the crawler claims -/

lemma dedup_eq_singleton_iff_all {l : List Bytes} (hl : l ≠ []) (v : Bytes) :
    l.dedup = [v] ↔ ∀ x ∈ l, x = v := by
  constructor
  · intro hd x hx
    have hxd : x ∈ l.dedup := List.mem_dedup.mpr hx
    rw [hd] at hxd
    simpa using hxd
  · intro hall
    have hv : v ∈ l.dedup := by
      obtain ⟨y, rest, rfl⟩ := List.exists_cons_of_ne_nil hl
      have hy := hall y (List.mem_cons_self y rest)
      exact List.mem_dedup.mpr (hy ▸ List.mem_cons_self y rest)
    have hsub : ∀ x ∈ l.dedup, x = v := fun x hx => hall x (List.mem_dedup.mp hx)
    have hnd : l.dedup.Nodup := List.nodup_dedup l
    rcases hdd : l.dedup with - | ⟨w, ws⟩
    · rw [hdd] at hv
      simp at hv
    · rw [hdd] at hsub hnd
      have hw : w = v := hsub w (List.mem_cons_self w ws)
      rcases ws with - | ⟨w2, ws2⟩
      · rw [hw]
      · exfalso
        have hw2 : w2 = v := hsub w2 (by simp)
        rw [List.nodup_cons] at hnd
        exact hnd.1 (by rw [hw, ← hw2]; simp)

lemma findLoop_all_ping {l : List GenericNode}
    (h : l.all (fun n => n.kind = NodeKind.ping) = true) :
    findLoop l = (l.map GenericNode.key, false) := by
  induction l with
  | nil => rfl
  | cons n rest ih =>
    simp only [List.all_cons, Bool.and_eq_true, decide_eq_true_eq] at h
    obtain ⟨hn, hrest⟩ := h
    have hk : ¬ n.kind = NodeKind.index := by
      rw [hn]; intro hc; cases hc
    simp only [findLoop, if_neg hk, ih (by simpa using hrest), List.map_cons]

lemma findLoop_any_index {l : List GenericNode}
    (h : l.any (fun n => n.kind = NodeKind.index) = true) :
    (findLoop l).2 = true := by
  induction l with
  | nil => simp at h
  | cons n rest ih =>
    simp only [List.any_cons, Bool.or_eq_true, decide_eq_true_eq] at h
    by_cases hk : n.kind = NodeKind.index
    · simp [findLoop, hk]
    · rcases h with hn | hrest
      · exact absurd hn hk
      · simp only [findLoop, if_neg hk]
        exact ih (by simpa using hrest)

/-- C3 counterexample: a value-crawl round that collected two values is
claimed to return a value (the most common one when they disagree); but
`_handle_found_values` on two disagreeing values logs the warning and
returns `None` — no value is returned and no cache write happens. -/
theorem c3_value_disagreement_counterexample :
    ([(("k", [1]) : String × Bytes), ("k", [2])] ≠ []) ∧
    handleFoundValues none [("k", [1]), ("k", [2])] = (none, none) := by
  exact ⟨by simp, rfl⟩

/-- C3 amended: in a value crawl, whenever at least one value is
collected in a round the crawl returns a value only if all collected
values agree: in that case the common value is returned, after
scheduling a `call_store` cache write at the popped
`nearest_without_value` peer when that peer exists and is a peer node;
if the collected values disagree, a warning is logged and `None` is
returned (no value and no cache write). -/
theorem c3_value_return_amended (nwv : Option GenericNode)
    (items : List (String × Bytes)) (hne : items ≠ []) :
    (∀ v, (∀ x ∈ items.map Prod.snd, x = v) →
      (handleFoundValues nwv items).1 = some v) ∧
    ((∃ x ∈ items.map Prod.snd, ∃ y ∈ items.map Prod.snd, x ≠ y) →
      handleFoundValues nwv items = (none, none)) ∧
    (∀ v p, (∀ x ∈ items.map Prod.snd, x = v) → nwv = some p →
      p.kind = NodeKind.ping →
      ∃ k, (k, v) ∈ items ∧ (handleFoundValues nwv items).2 = some (p, k, v)) := by
  have hvne : items.map Prod.snd ≠ [] := by
    simpa using hne
  refine ⟨?_, ?_, ?_⟩
  · intro v hall
    have hd : (items.map Prod.snd).dedup = [v] :=
      (dedup_eq_singleton_iff_all hvne v).mpr hall
    simp only [handleFoundValues, hd]
  · rintro ⟨x, hx, y, hy, hxy⟩
    rcases hdd : (items.map Prod.snd).dedup with - | ⟨w, ws⟩
    · exact absurd ((List.dedup_eq_nil _).mp hdd) hvne
    · rcases ws with - | ⟨w2, ws2⟩
      · have hall := (dedup_eq_singleton_iff_all hvne w).mp hdd
        exact absurd (by rw [hall x hx, hall y hy]) hxy
      · simp only [handleFoundValues, hdd]
  · intro v p hall hp hping
    have hd : (items.map Prod.snd).dedup = [v] :=
      (dedup_eq_singleton_iff_all hvne v).mpr hall
    have hvmem : v ∈ items.map Prod.snd := by
      obtain ⟨y, rest, hcons⟩ := List.exists_cons_of_ne_nil hvne
      rw [hcons]
      have : y ∈ items.map Prod.snd := by rw [hcons]; exact List.mem_cons_self y rest
      rw [← hall y this]
      exact List.mem_cons_self y rest
    obtain ⟨d, hdmem, hdv⟩ := List.mem_map.mp hvmem
    have hfind : (items.find? (fun e => e.2 = v)).isSome := by
      rw [List.find?_isSome]
      exact ⟨d, hdmem, by simp [hdv]⟩
    obtain ⟨d0, hd0⟩ := Option.isSome_iff_exists.mp hfind
    have hd0v : d0.2 = v := by
      have := List.find?_some hd0
      simpa using this
    have hd0mem : d0 ∈ items := List.mem_of_find?_eq_some hd0
    refine ⟨d0.1, ?_, ?_⟩
    · rw [← hd0v]
      exact hd0mem
    · simp only [handleFoundValues, hd, hp, if_pos hping, hd0]

/-- C3 witness: the amended statement evaluated on two items agreeing on
the value `[7]`, with a peer-node `nearest_without_value`. -/
theorem c3_value_return_witness :
    ((handleFoundValues (some peerA) [("k", [7]), ("k2", [7])]).1 = some [7]) ∧
    (∃ k, (k, ([7] : Bytes)) ∈ [(("k", [7]) : String × Bytes), ("k2", [7])] ∧
      (handleFoundValues (some peerA) [("k", [7]), ("k2", [7])]).2 =
        some (peerA, k, [7])) :=
  ⟨(c3_value_return_amended (some peerA) [("k", [7]), ("k2", [7])]
      (by simp)).1 [7] (by decide),
   (c3_value_return_amended (some peerA) [("k", [7]), ("k2", [7])]
      (by simp)).2.2 [7] peerA (by decide) rfl rfl⟩

/-- C4 counterexample: a round whose first-`count` uncontacted slice is
`[peerA, indexB, peerC]` aborts at the index node — `_find` returns
`None` from inside the loop, so the round and the crawl stop, no RPC
coroutine is awaited, and the peer after the index entry is never
selected; the claim says index entries are skipped and the round
proceeds. -/
theorem c4_index_node_counterexample :
    (findRound [peerA, indexB, peerC] 3).2 = true ∧
    invokedPeers [peerA, indexB, peerC] 3 = [] ∧
    ¬ peerC.key ∈ (findRound [peerA, indexB, peerC] 3).1 := by
  refine ⟨?_, ?_, ?_⟩ <;> decide

/-- C4 amended: in every crawl round, up to `count` uncontacted nodes
are selected from the heap; when all selected entries are peer nodes the
round invokes the RPC on each of them and marks each contacted; when an
index (non-peer) entry is among the selected entries the round is
aborted — `_find` returns `None`, ending the crawl, and no RPC of the
round is awaited (peers scanned before the index entry are still marked
contacted). -/
theorem c4_find_round_amended (uncontacted : List GenericNode) (count : ℕ) :
    ((uncontacted.take count).all (fun n => n.kind = NodeKind.ping) = true →
      findRound uncontacted count =
        ((uncontacted.take count).map GenericNode.key, false) ∧
      invokedPeers uncontacted count =
        (uncontacted.take count).map GenericNode.key) ∧
    ((uncontacted.take count).any (fun n => n.kind = NodeKind.index) = true →
      (findRound uncontacted count).2 = true ∧
      invokedPeers uncontacted count = []) := by
  constructor
  · intro h
    have hl := findLoop_all_ping h
    refine ⟨hl, ?_⟩
    simp [invokedPeers, findRound, hl]
  · intro h
    have hl := findLoop_any_index h
    refine ⟨hl, ?_⟩
    simp [invokedPeers, findRound, hl]

/-- C4 witness: the amended statement evaluated for an all-peer round
and for a round containing an index entry. -/
theorem c4_find_round_witness :
    (findRound [peerA, peerC] 2 =
        (([peerA, peerC].take 2).map GenericNode.key, false) ∧
      invokedPeers [peerA, peerC] 2 =
        ([peerA, peerC].take 2).map GenericNode.key) ∧
    ((findRound [peerA, indexB] 2).2 = true ∧
      invokedPeers [peerA, indexB] 2 = []) :=
  ⟨(c4_find_round_amended [peerA, peerC] 2).1 (by decide),
   (c4_find_round_amended [peerA, indexB] 2).2 (by decide)⟩

/-! ### Lemmas for the routing-table claim -/

lemma LRU.add_append {l : LRU} {k : ℕ} {v : GenericNode}
    (hcap : ¬ l.len = l.maxsize)
    (hmem : l.index.any (fun e => e.1 = k) = false) :
    l.add k v = ⟨l.maxsize, l.index ++ [(k, v)]⟩ := by
  simp [LRU.add, odAssign, hcap, hmem]

lemma LRU.delNode_any_false {l : LRU} {n : GenericNode} {k : ℕ}
    (h : l.index.any (fun e => e.1 = k) = false) :
    (l.delNode n).index.any (fun e => e.1 = k) = false := by
  rw [List.any_eq_false] at h ⊢
  intro e he
  exact h e (List.mem_of_mem_filter he)

lemma LRU.delNode_self_any_false (l : LRU) (n : GenericNode) :
    (l.delNode n).index.any (fun e => e.1 = n.long_id) = false := by
  rw [List.any_eq_false]
  intro e he
  have := List.of_mem_filter he
  simpa using this

lemma LRU.delNode_len_le (l : LRU) (n : GenericNode) :
    (l.delNode n).len ≤ l.len :=
  List.length_filter_le _ _

lemma KBucket.add_node_full {b : KBucket} {n : GenericNode}
    (hnm : b.main_set.containsNode n = false)
    (hfull : ¬ b.len < b.ksize)
    (hrcap : b.replacement_set.len < b.replacement_set.maxsize) :
    b.add_node n =
      ({ b with replacement_set :=
          ⟨b.replacement_set.maxsize,
            (b.replacement_set.delNode n).index ++ [(n.long_id, n)]⟩ }, false) := by
  unfold KBucket.add_node
  rw [if_neg (by simp [hnm]), if_neg hfull]
  by_cases hrc : b.replacement_set.containsNode n
  · rw [if_pos hrc]
    have hcap' : ¬ (b.replacement_set.delNode n).len =
        (b.replacement_set.delNode n).maxsize := by
      have h1 := LRU.delNode_len_le b.replacement_set n
      have h2 : (b.replacement_set.delNode n).maxsize =
          b.replacement_set.maxsize := rfl
      omega
    simp only [LRU.add_append hcap'
      (LRU.delNode_self_any_false b.replacement_set n)]
    rfl
  · rw [if_neg hrc]
    have hmem : b.replacement_set.index.any (fun e => e.1 = n.long_id) = false := by
      rw [List.any_eq_false]
      intro e he
      simp only [decide_eq_true_eq]
      intro hek
      refine hrc ?_
      unfold LRU.containsNode
      rw [List.any_eq_true]
      exact ⟨e, he, by simp [hek]⟩
    have hid : (b.replacement_set.delNode n).index = b.replacement_set.index := by
      unfold LRU.delNode
      apply List.filter_eq_self.mpr
      intro e he
      rw [List.any_eq_false] at hmem
      simpa using hmem e he
    simp only [LRU.add_append
      (show ¬ b.replacement_set.len = b.replacement_set.maxsize by omega) hmem,
      hid]

lemma findIdx?_set_congr (p : KBucket → Bool) (l : List KBucket) (i s : ℕ)
    (b' : KBucket) (h : i < l.length → p (l.getD i default) = p b') :
    List.findIdx? p (l.set i b') s = List.findIdx? p l s := by
  induction l generalizing i s with
  | nil => rfl
  | cons a as ih =>
    cases i with
    | zero =>
      have hp := h (by simp)
      simp only [List.getD_cons_zero] at hp
      simp only [List.set, List.findIdx?]
      rw [← hp]
    | succ j =>
      simp only [List.set, List.findIdx?]
      by_cases hpa : p a
      · simp [hpa]
      · simp only [hpa, Bool.false_eq_true, ite_false]
        refine ih j (s + 1) (fun hj => ?_)
        have := h (by simpa using Nat.succ_lt_succ hj)
        simpa using this

lemma getD_set_self {l : List KBucket} {i : ℕ} {x : KBucket}
    (h : i < l.length) : (l.set i x).getD i default = x := by
  simp [List.getD, List.getElem?_set_self, h]

/-- C2: for a call of `add_contact(node)` whose target bucket is full
and not eligible for splitting (its range does not contain the source
node and its depth is a multiple of 5), the call schedules a PING probe
of the bucket head via `ensure_future(call_ping(...))` and returns at
once, with the main set unchanged and the new contact kept at the
most-recent end of the replacement set.  When the probe later times out,
`call_ping` resumes with `(False, None)` and `handle_call_response`
removes the head from the router: `remove_node` deletes it from the main
set and promotes the most recent replacement — the new contact — to the
most-recent main-set position.  When the probe succeeds,
`handle_call_response` welcomes the head, which is already in the table,
so the state is unchanged and the new contact stays out of the main
set. -/
theorem c2_full_bucket_ping_probe
    (rt : RoutingTable) (n hd : GenericNode) (i : ℕ)
    (hidx : rt.getBucketIndexFor n = some i)
    (hilen : i < rt.buckets.length)
    (hfull : (rt.buckets.getD i default).is_full = true)
    (hnm : (rt.buckets.getD i default).main_set.containsNode n = false)
    (hsrc : (rt.buckets.getD i default).has_in_range rt.node = false)
    (hdepth : (rt.buckets.getD i default).depth % 5 = 0)
    (hhead : (rt.buckets.getD i default).main_set.index.head? =
      some (hd.long_id, hd))
    (hmcap : (rt.buckets.getD i default).main_set.len <
      (rt.buckets.getD i default).main_set.maxsize)
    (hrcap : (rt.buckets.getD i default).replacement_set.len <
      (rt.buckets.getD i default).replacement_set.maxsize)
    (hhidx : rt.getBucketIndexFor hd = some i)
    (hhrep : (rt.buckets.getD i default).replacement_set.containsNode hd = false) :
    (rt.addContact n).2 = some hd ∧
    ((rt.addContact n).1.buckets.getD i default).main_set =
      (rt.buckets.getD i default).main_set ∧
    ((rt.addContact n).1.buckets.getD i default).replacement_set.index.getLast? =
      some (n.long_id, n) ∧
    (((rt.addContact n).1.handleCallResponse false hd).buckets.getD i
        default).main_set.containsNode hd = false ∧
    (((rt.addContact n).1.handleCallResponse false hd).buckets.getD i
        default).main_set.index.getLast? = some (n.long_id, n) ∧
    (rt.addContact n).1.handleCallResponse true hd = (rt.addContact n).1 ∧
    ((rt.addContact n).1.buckets.getD i default).main_set.containsNode n =
      false := by
  set b := rt.buckets.getD i default with hbdef
  obtain ⟨mrest, hmain⟩ : ∃ r, b.main_set.index = (hd.long_id, hd) :: r := by
    cases hmi : b.main_set.index with
    | nil => rw [hmi] at hhead; simp at hhead
    | cons e r =>
      rw [hmi] at hhead
      simp only [List.head?_cons, Option.some.injEq] at hhead
      exact ⟨r, by rw [hhead]⟩
  have hfull' : ¬ b.len < b.ksize := by
    simp only [KBucket.is_full, decide_eq_true_eq] at hfull
    omega
  have haddn := KBucket.add_node_full (b := b) (n := n) hnm hfull' hrcap
  set bR : KBucket :=
    { b with replacement_set :=
        ⟨b.replacement_set.maxsize,
          (b.replacement_set.delNode n).index ++ [(n.long_id, n)]⟩ } with hbRdef
  have hsrcR : bR.has_in_range rt.node = false := hsrc
  have hdepthR : bR.depth = b.depth := rfl
  have hfullR : bR.is_full = true := hfull
  have hheadR : bR.headNode = some hd := by
    show (bR.main_set.index.head?.map Prod.snd) = some hd
    show (b.main_set.index.head?.map Prod.snd) = some hd
    rw [hmain]
    rfl
  have hstep : rt.addContact n =
      ({ rt with buckets := rt.buckets.set i bR }, some hd) := by
    unfold RoutingTable.addContact RoutingTable.addContactAux
    rw [hidx]
    simp only [← hbdef, haddn, Bool.false_eq_true, and_false, if_false,
      ite_false, hsrcR, hdepthR, hdepth, hfullR]
    simp [← hbRdef, hsrcR, hfullR, hheadR, hdepth]
  have hne : ¬ n.long_id = hd.long_id := by
    intro he
    have h1 := hnm
    unfold LRU.containsNode at h1
    rw [hmain, List.any_eq_false] at h1
    exact h1 (hd.long_id, hd) (List.mem_cons_self _ _) (by simp [he])
  have hanym : b.main_set.index.any (fun e => e.1 = n.long_id) = false := hnm
  have hanyr : b.replacement_set.index.any (fun e => e.1 = hd.long_id) =
      false := hhrep
  have hrepR : bR.replacement_set.containsNode hd = false := by
    show ((b.replacement_set.delNode n).index ++ [(n.long_id, n)]).any
      (fun e => e.1 = hd.long_id) = false
    rw [List.any_append, LRU.delNode_any_false hanyr]
    simp [hne]
  have hmainhd : bR.main_set.containsNode hd = true := by
    show b.main_set.index.any (fun e => e.1 = hd.long_id) = true
    rw [hmain]
    simp
  have hidxR : RoutingTable.getBucketIndexFor
      { rt with buckets := rt.buckets.set i bR } hd = some i := by
    unfold RoutingTable.getBucketIndexFor at hhidx ⊢
    show List.findIdx? (fun bk => decide ((hd.long_id : ℚ) < bk.rangeHigh))
      (rt.buckets.set i bR) = some i
    rw [findIdx?_set_congr (fun bk => decide ((hd.long_id : ℚ) < bk.rangeHigh))
      rt.buckets i 0 bR (fun _ => rfl)]
    exact hhidx
  have hsetlen : i < (rt.buckets.set i bR).length := by
    rw [List.length_set]
    exact hilen
  have hmcap' : ¬ (b.main_set.delNode hd).len =
      (b.main_set.delNode hd).maxsize := by
    have h1 := LRU.delNode_len_le b.main_set hd
    have h2 : (b.main_set.delNode hd).maxsize = b.main_set.maxsize := rfl
    omega
  have hremove : bR.remove_node hd =
      { bR with
          main_set := ⟨b.main_set.maxsize,
            (b.main_set.delNode hd).index ++ [(n.long_id, n)]⟩
          replacement_set := ⟨b.replacement_set.maxsize,
            (b.replacement_set.delNode n).index⟩ } := by
    have hlen : bR.replacement_set.len ≠ 0 := by
      show ((b.replacement_set.delNode n).index ++ [(n.long_id, n)]).length ≠ 0
      simp
    have hpop : bR.replacement_set.pop =
        (⟨b.replacement_set.maxsize, (b.replacement_set.delNode n).index⟩,
          some (n.long_id, n)) := by
      show ((⟨bR.replacement_set.maxsize,
          ((b.replacement_set.delNode n).index ++ [(n.long_id, n)]).dropLast⟩ :
            LRU),
        ((b.replacement_set.delNode n).index ++ [(n.long_id, n)]).getLast?) =
        ((⟨b.replacement_set.maxsize,
          (b.replacement_set.delNode n).index⟩ : LRU), some (n.long_id, n))
      rw [List.dropLast_concat, List.getLast?_concat]
    have haddm : (bR.main_set.delNode hd).add n.long_id n =
        ⟨b.main_set.maxsize, (b.main_set.delNode hd).index ++ [(n.long_id, n)]⟩ := by
      have hmem : (b.main_set.delNode hd).index.any
          (fun e => e.1 = n.long_id) = false :=
        LRU.delNode_any_false hanym
      show (b.main_set.delNode hd).add n.long_id n =
        (⟨b.main_set.maxsize,
          (b.main_set.delNode hd).index ++ [(n.long_id, n)]⟩ : LRU)
      rw [LRU.add_append hmcap' hmem]
      rfl
    unfold KBucket.remove_node
    simp only [hrepR, Bool.false_eq_true, ite_false, hmainhd, if_true]
    rw [if_pos hlen, hpop]
    show ({ bR with
        main_set := (bR.main_set.delNode hd).add n.long_id n
        replacement_set :=
          ⟨b.replacement_set.maxsize, (b.replacement_set.delNode n).index⟩ } :
        KBucket) = _
    rw [haddm]
  have hfail : RoutingTable.handleCallResponse
      { rt with buckets := rt.buckets.set i bR } false hd =
      { rt with buckets := (rt.buckets.set i bR).set i (bR.remove_node hd) } := by
    unfold RoutingTable.handleCallResponse
    rw [if_pos (by simp)]
    unfold RoutingTable.removeContact
    rw [hidxR]
    show ({ rt with buckets :=
        ((rt.buckets.set i bR).set i
          (((rt.buckets.set i bR).getD i default).remove_node hd)) } :
        RoutingTable) = _
    rw [getD_set_self hilen]
  have hsucc : RoutingTable.handleCallResponse
      { rt with buckets := rt.buckets.set i bR } true hd =
      { rt with buckets := rt.buckets.set i bR } := by
    unfold RoutingTable.handleCallResponse
    rw [if_neg (by simp)]
    have hcond : ¬ RoutingTable.isNewNode
        { rt with buckets := rt.buckets.set i bR } hd = true ∨
        hd.kind = NodeKind.index := by
      left
      unfold RoutingTable.isNewNode
      rw [hidxR]
      show ¬ ((rt.buckets.set i bR).getD i default).is_new_node hd = true
      rw [getD_set_self hilen]
      simp [KBucket.is_new_node, hmainhd]
    unfold RoutingTable.welcomeIfNew
    rw [if_pos hcond]
  refine ⟨?_, ?_, ?_, ?_, ?_, ?_, ?_⟩
  · rw [hstep]
  · rw [hstep]
    show ((rt.buckets.set i bR).getD i default).main_set = b.main_set
    rw [getD_set_self hilen]
  · rw [hstep]
    show ((rt.buckets.set i bR).getD i default).replacement_set.index.getLast? =
      some (n.long_id, n)
    rw [getD_set_self hilen]
    show ((b.replacement_set.delNode n).index ++ [(n.long_id, n)]).getLast? =
      some (n.long_id, n)
    rw [List.getLast?_concat]
  · rw [hstep]
    show ((RoutingTable.handleCallResponse _ false hd).buckets.getD i
        default).main_set.containsNode hd = false
    rw [hfail]
    show (((rt.buckets.set i bR).set i (bR.remove_node hd)).getD i
        default).main_set.containsNode hd = false
    rw [getD_set_self hsetlen, hremove]
    show ((b.main_set.delNode hd).index ++ [(n.long_id, n)]).any
      (fun e => e.1 = hd.long_id) = false
    rw [List.any_append, LRU.delNode_self_any_false]
    simp [hne]
  · rw [hstep]
    show ((RoutingTable.handleCallResponse _ false hd).buckets.getD i
        default).main_set.index.getLast? = some (n.long_id, n)
    rw [hfail]
    show (((rt.buckets.set i bR).set i (bR.remove_node hd)).getD i
        default).main_set.index.getLast? = some (n.long_id, n)
    rw [getD_set_self hsetlen, hremove]
    show ((b.main_set.delNode hd).index ++ [(n.long_id, n)]).getLast? =
      some (n.long_id, n)
    rw [List.getLast?_concat]
  · rw [hstep]
    exact hsucc
  · rw [hstep]
    show ((rt.buckets.set i bR).getD i default).main_set.containsNode n = false
    rw [getD_set_self hilen]
    exact hnm

/-- C2 witness: the scenario evaluated on a two-bucket table whose first
bucket (range `[0, 100]`, `ksize = 1`) is full with `witMember`, with the
source node outside that range, depth `5 % 5 = 0`, and the new contact
`witNew` falling into the full bucket. -/
theorem c2_full_bucket_ping_probe_witness :
    (witTable.addContact witNew).2 = some witMember ∧
    ((witTable.addContact witNew).1.buckets.getD 0 default).main_set =
      (witTable.buckets.getD 0 default).main_set ∧
    ((witTable.addContact witNew).1.buckets.getD 0
        default).replacement_set.index.getLast? = some (witNew.long_id, witNew) ∧
    (((witTable.addContact witNew).1.handleCallResponse false
        witMember).buckets.getD 0 default).main_set.containsNode witMember =
      false ∧
    (((witTable.addContact witNew).1.handleCallResponse false
        witMember).buckets.getD 0 default).main_set.index.getLast? =
      some (witNew.long_id, witNew) ∧
    (witTable.addContact witNew).1.handleCallResponse true witMember =
      (witTable.addContact witNew).1 ∧
    ((witTable.addContact witNew).1.buckets.getD 0
        default).main_set.containsNode witNew = false :=
  c2_full_bucket_ping_probe witTable witNew witMember 0
    (by decide) (by decide) (by decide) (by decide) (by decide) (by decide)
    (by decide) (by decide) (by decide) (by decide) (by decide)

end Liaa

